import Mathlib

set_option maxRecDepth 40000

/-!
Verification development for `listup_jorei` (src/src/main.rs), a sequential
crawler of the jorei.slis.doshisha.ac.jp ordinance search API.

The Rust source is shallowly embedded:
* `DateTime<Utc>` values are modelled as `Int` seconds since the Unix epoch.
* chrono's civil-calendar computation (`Datelike` on a `FixedOffset` local
  time) is modelled by the standard civil-from-days algorithm over the
  proleptic Gregorian calendar.
* Fallible effects (HTTP GET + JSON decode, file writes, index operations)
  are parameters of the run: an `Oracle` assigns each operation its result,
  and `runMain` replays `main`'s control flow over the oracle, producing the
  sequence of observable events and the final outcome.
* Rust `Result`/`?` propagation is an `err` outcome; a Rust runtime panic
  (`unwrap` on `None`, out-of-bounds indexing, division by zero) is the
  distinct `panicked` outcome, since a panic is not a returned error value.
-/

/-- Civil (year, month, day) from a count of days since 1970-01-01 in the
proleptic Gregorian calendar (Howard Hinnant's `civil_from_days`); this models
chrono's date computation used by `Datelike::year/month/day`. -/
def civil_from_days (z0 : Int) : Int × Nat × Nat :=
  let z := z0 + 719468
  let era := z.fdiv 146097
  let doe := (z - era * 146097).toNat
  let yoe := (doe - doe / 1460 + doe / 36524 - doe / 146096) / 365
  let doy := doe - (365 * yoe + yoe / 4 - yoe / 100)
  let mp := (5 * doy + 2) / 153
  let d := doy - (153 * mp + 2) / 5 + 1
  let m := if mp < 10 then mp + 3 else mp - 9
  let y := (yoe : Int) + era * 400
  (if m ≤ 2 then y + 1 else y, m, d)

/-- Modelled from the spec: the internal date type of `jplaw_data_types::law`
(not under src/) is a civil (year, month, day) triple. -/
structure Date where
  year : Nat
  month : Nat
  day : Nat
deriving DecidableEq, Repr

/-- Modelled from the spec: `Date::gen_from_ad` builds the civil triple from
an AD year, month and day. -/
def Date.gen_from_ad (y m d : Nat) : Date := ⟨y, m, d⟩

/-- Embedding of `utc_to_date` (src/src/main.rs:151): shift the UTC instant by
the fixed offset of +9 hours (`FixedOffset::east_opt(9 * 3600)`) and take the
calendar date of the resulting local time. -/
def utc_to_date (datatime : Int) : Date :=
  let local_t := datatime + 9 * 3600
  let days := local_t.fdiv 86400
  let c := civil_from_days days
  Date.gen_from_ad c.1.toNat c.2.1 c.2.2

/-- Rendering of one optional year bound in `gen_list_url`
(src/src/main.rs:72-82): `format!("{y:0>4}")` when the bound is present
(decimal digits left-padded with '0' to a minimum width of 4), the wildcard
sentinel `*` when absent. -/
def year_bound : Option Nat → String
  | some y => ⟨List.leftpad 4 '0' (toString y).data⟩
  | none => "*"

/-- Constant piece of the list URL before the start bound (src/src/main.rs:84). -/
def list_url_pre : String :=
  "https://jorei.slis.doshisha.ac.jp/api/reiki/select?f.municipality_id.facet.limit=1788&facet.mincount=1&facet.range=announcement_date&facet.range.gap=%2B1YEAR&facet.range.start=1883-01-01T00%3A00%3A00Z&facet.range.end=NOW&q=collection%3Alatest%20AND%20announcement_date%3A%5B"

/-- Constant piece of the list URL between the two date bounds. -/
def list_url_mid : String := "%20TO%20"

/-- Constant piece of the list URL between the end bound and the offset. -/
def list_url_dates_close : String := "%5D&start="

/-- Constant piece of the list URL between the offset and the rows value. -/
def list_url_rows_key : String := "&rows="

/-- Constant trailing facet parameters of the list URL. -/
def list_url_suffix : String :=
  "&fq=&facet=true&facet.field=municipality_type&facet.field=city&facet.field=type&facet.field=h_type&facet.field=municipality_id"

/-- Embedding of `gen_list_url` (src/src/main.rs:71-86): the paginated list
query URL, with optional year bounds, offset `rows * n` and page size `rows`
interpolated into the fixed format string. -/
def gen_list_url (start end_y : Option Nat) (n rows : Nat) : String :=
  let start_s := year_bound start
  let end_s := year_bound end_y
  let start_n := rows * n
  list_url_pre ++ start_s ++ list_url_mid ++ end_s ++ list_url_dates_close ++
    toString start_n ++ list_url_rows_key ++ toString rows ++ list_url_suffix

/-- Constant piece of the detail URL before the identifier (src/src/main.rs:89). -/
def jorei_url_pre : String :=
  "https://jorei.slis.doshisha.ac.jp/api/reiki/select?q=ids%3A"

/-- Constant piece of the detail URL after the identifier. -/
def jorei_url_suf : String := "&all=true"

/-- Embedding of `gen_jorei_url` (src/src/main.rs:88-90): the single-record
detail query URL; the identifier is interpolated verbatim. -/
def gen_jorei_url (id : String) : String := jorei_url_pre ++ id ++ jorei_url_suf

/-- Embedding of `JoreiInfoResponseDocs` (src/src/main.rs:92-136), one raw
record of a response. `DateTime<Utc>` fields are epoch seconds (`Int`);
the Rust field `r#type` is spelled `rtype`. -/
structure JoreiInfoResponseDocs where
  collection : List String
  collected_date : List String
  updated_date : List Int
  municipality_id : String
  prefecture : Option String
  city : Option String
  prefecture_kana : Option String
  city_kana : Option String
  municipality_type : String
  area : String
  id : String
  reiki_id : String
  h1 : Option String
  title : String
  announcement_date : Option Int
  rtype : String
  last_updated_date : Option Int
  reiki_dates : Option (List String)
  reiki_numbers : Option (List String)
  update_count : Option Nat
  original_url : Option String
  reiki_url : Option String
  has_version : Bool
  file_type : Option String
  h_type : List String
  content : Option String
  collected_date_s : Option String
  announcement_date_s : Option String
  last_updated_date_s : Option String
  updated_date_s : Option String
deriving DecidableEq, Repr

/-- Embedding of `JoreiInfoResponse` (src/src/main.rs:138-144). -/
structure JoreiInfoResponse where
  num_found : Nat
  start : Nat
  docs : List JoreiInfoResponseDocs
deriving DecidableEq, Repr

/-- Embedding of `JoreiApiResponse` (src/src/main.rs:146-149). -/
structure JoreiApiResponse where
  response : JoreiInfoResponse
deriving DecidableEq, Repr

/-- Modelled from the spec: `jplaw_data_types::listup::JoreiData` (not under
src/), the persisted record shape, with exactly the fields assigned in
`gen_jorei_data`. -/
structure JoreiData where
  collection : List String
  collected_date : List String
  updated_date : List Date
  municipality_id : String
  prefecture : Option String
  city : Option String
  prefecture_kana : Option String
  city_kana : Option String
  municipality_type : String
  area : String
  id : String
  reiki_id : String
  h1 : Option String
  title : String
  announcement_date : Option Date
  jorei_type : String
  last_updated_date : Option Date
  reiki_dates : Option (List String)
  reiki_numbers : Option (List String)
  original_url : Option String
  reiki_url : Option String
  has_version : Bool
  file_type : String
  h_type : List String
  content : Option String
  collected_date_s : Option String
  announcement_date_s : Option String
  last_updated_date_s : Option String
  updated_date_s : Option String
deriving DecidableEq, Repr

/-- Modelled from the spec: `jplaw_data_types::listup::JoreiInfo` (not under
src/), the per-record index summary, with exactly the fields assigned in
`gen_jorei_info`. -/
structure JoreiInfo where
  title : String
  reiki_id : String
  id : String
  prefecture : Option String
  city : Option String
  announcement_date : Option Date
  updated_date : Option Date
deriving DecidableEq, Repr

/-- Value of a Rust expression that either evaluates normally or panics.
A panic is not an `Err` value: it cannot be caught by `?`. -/
inductive RustValue (α : Type) where
  | ok (a : α)
  | panicked (msg : String)
deriving DecidableEq, Repr

/-- Panic message of `Option::unwrap` on `None`. -/
def unwrap_none_msg : String := "called Option::unwrap() on a None value"

/-- Panic message of indexing `docs[0]` into an empty vector. -/
def index_oob_msg : String := "index out of bounds: the len is 0 but the index is 0"

/-- Panic message of `all_size / args.rows` when `rows = 0`. -/
def div_zero_msg : String := "attempt to divide by zero"

/-- Embedding of `gen_jorei_data` (src/src/main.rs:161-193): field-for-field
mapping of a raw record into the persisted shape; date fields go through
`utc_to_date` (the revision list element-wise). The source evaluates
`docs.file_type.clone().unwrap()` inside the struct literal, so a record
without a file type makes the whole expression panic; every other field
mapping is total, so matching on `file_type` first is equivalent. -/
def gen_jorei_data (docs : JoreiInfoResponseDocs) : RustValue JoreiData :=
  match docs.file_type with
  | none => .panicked unwrap_none_msg
  | some ft =>
    .ok
      { collection := docs.collection
        collected_date := docs.collected_date
        updated_date := docs.updated_date.map utc_to_date
        municipality_id := docs.municipality_id
        prefecture := docs.prefecture
        city := docs.city
        prefecture_kana := docs.prefecture_kana
        city_kana := docs.city_kana
        municipality_type := docs.municipality_type
        area := docs.area
        id := docs.id
        reiki_id := docs.reiki_id
        h1 := docs.h1
        title := docs.title
        announcement_date := docs.announcement_date.map utc_to_date
        jorei_type := docs.rtype
        last_updated_date := docs.last_updated_date.map utc_to_date
        reiki_dates := docs.reiki_dates
        reiki_numbers := docs.reiki_numbers
        original_url := docs.original_url
        reiki_url := docs.reiki_url
        has_version := docs.has_version
        file_type := ft
        h_type := docs.h_type
        content := docs.content
        collected_date_s := docs.collected_date_s
        announcement_date_s := docs.announcement_date_s
        last_updated_date_s := docs.last_updated_date_s
        updated_date_s := docs.updated_date_s }

/-- Embedding of `gen_jorei_info` (src/src/main.rs:195-205): the index summary
of one raw record. Its `updated_date` field is taken from the scalar
`last_updated_date` of the raw record. -/
def gen_jorei_info (docs : JoreiInfoResponseDocs) : JoreiInfo :=
  { title := docs.title
    reiki_id := docs.reiki_id
    id := docs.id
    prefecture := docs.prefecture
    city := docs.city
    announcement_date := docs.announcement_date.map utc_to_date
    updated_date := docs.last_updated_date.map utc_to_date }

/-- Path of the per-record output file written by `write_docs`
(src/src/main.rs:207-213): `format!("{output}/{id}.json")`. -/
def write_docs_path (output id : String) : String := output ++ "/" ++ id ++ ".json"


/-- Embedding of the CLI arguments `AppArgs` (src/src/main.rs:50-69); the Rust
field `end` is spelled `end_y`. -/
structure AppArgs where
  start : Option Nat
  end_y : Option Nat
  index : String
  output : String
  rows : Nat
  sleep_time : Nat
deriving DecidableEq, Repr

/-- Environment of one run: the result each fallible external operation would
return. `http` covers `client.get(url).send().await?.json().await?` (transport
and JSON decode errors merged into one `Except`, keyed by the exact URL);
`write` covers the whole of `write_docs` (create/write_all/flush);
`appendIndex` covers `write_value_lst`; `genIndexFile` covers
`gen_file_value_lst`; `flushIndex` covers `flush_file_value_lst`. -/
structure Oracle where
  initLogger : Except String Unit
  buildClient : Except String Unit
  http : String → Except String JoreiApiResponse
  genIndexFile : Except String Unit
  write : String → JoreiData → Except String Unit
  appendIndex : JoreiInfo → Except String Unit
  flushIndex : Except String Unit

/-- Observable events of a run, in program order. -/
inductive Ev where
  | fetchList (url : String)
  | fetchDetail (url : String)
  | wroteRecord (path : String)
  | appendedIndex (info : JoreiInfo)
  | slept (ms : Nat)
  | flushedIndex
deriving DecidableEq, Repr

/-- Errors propagated by `?` to `main`'s `anyhow::Result` boundary. A reqwest
error value internally records the URL of the failed request; a std::io error
value carries only the OS-level failure, and the source attaches no further
context to either. -/
inductive RunError where
  | reqwestErr (url : String) (msg : String)
  | ioErr (msg : String)
  | setupErr (msg : String)
deriving DecidableEq, Repr

/-- Result of a fragment of the run: continue normally, abort with a
propagated error, or abort with a panic. -/
inductive StepRes where
  | cont
  | err (e : RunError)
  | panicked (msg : String)
deriving DecidableEq, Repr

/-- Final outcome of a whole run. -/
inductive Outcome where
  | ok
  | err (e : RunError)
  | panicked (msg : String)
deriving DecidableEq, Repr

/-- Embedding of the per-identifier body of `main`'s inner loop
(src/src/main.rs:244-261): fetch the detail URL, take `docs[0]` (a panic when
`docs` is empty), normalize (`gen_jorei_data`, a panic when the file type is
missing), write the record file, then append the index entry. -/
def processRecord (o : Oracle) (a : AppArgs) (id : String) : List Ev × StepRes :=
  let api_url := gen_jorei_url id
  match o.http api_url with
  | .error e => ([.fetchDetail api_url], .err (.reqwestErr api_url e))
  | .ok jorei_info =>
    match jorei_info.response.docs with
    | [] => ([.fetchDetail api_url], .panicked index_oob_msg)
    | docs :: _ =>
      match gen_jorei_data docs with
      | .panicked m => ([.fetchDetail api_url], .panicked m)
      | .ok data =>
        match o.write (write_docs_path a.output id) data with
        | .error e => ([.fetchDetail api_url], .err (.ioErr e))
        | .ok _ =>
          match o.appendIndex (gen_jorei_info docs) with
          | .error e =>
            ([.fetchDetail api_url, .wroteRecord (write_docs_path a.output id)],
              .err (.ioErr e))
          | .ok _ =>
            ([.fetchDetail api_url, .wroteRecord (write_docs_path a.output id),
                .appendedIndex (gen_jorei_info docs)], .cont)

/-- Embedding of the inner `while let Some(id) = id_stream.next()` loop
(src/src/main.rs:243-261): identifiers strictly in page order, stopping at the
first error or panic. -/
def processIds (o : Oracle) (a : AppArgs) : List String → List Ev × StepRes
  | [] => ([], .cont)
  | id :: rest =>
    let p := processRecord o a id
    match p.2 with
    | .cont =>
      let q := processIds o a rest
      (p.1 ++ q.1, q.2)
    | r => (p.1, r)

/-- Embedding of one iteration of the page loop (src/src/main.rs:238-266):
fetch the page's list URL, extract the identifiers in order, process them,
then sleep the configured `sleep_time` milliseconds. -/
def processPage (o : Oracle) (a : AppArgs) (n : Nat) : List Ev × StepRes :=
  let list_api_url := gen_list_url a.start a.end_y n a.rows
  match o.http list_api_url with
  | .error e => ([.fetchList list_api_url], .err (.reqwestErr list_api_url e))
  | .ok list_resp =>
    let id_lst := list_resp.response.docs.map (fun d => d.id)
    let p := processIds o a id_lst
    match p.2 with
    | .cont => (.fetchList list_api_url :: p.1 ++ [.slept a.sleep_time], .cont)
    | r => (.fetchList list_api_url :: p.1, r)

/-- Embedding of the outer `while let Some(n) = stream.next()` loop over page
indices, stopping at the first error or panic. -/
def processPages (o : Oracle) (a : AppArgs) : List Nat → List Ev × StepRes
  | [] => ([], .cont)
  | n :: rest =>
    let p := processPage o a n
    match p.2 with
    | .cont =>
      let q := processPages o a rest
      (p.1 ++ q.1, q.2)
    | r => (p.1, r)

/-- Page indices visited by the driver (src/src/main.rs:237):
`tokio_stream::iter(0..=(all_size / args.rows))`. -/
def joreiPages (all_size rows : Nat) : List Nat := List.range (all_size / rows + 1)

/-- Embedding of `main` (src/src/main.rs:215-269): logger and client setup,
bootstrap list query for `num_found`, index-file creation, the page loop over
`0..=(all_size / rows)` (a division-by-zero panic when `rows = 0`), and the
single final index flush. -/
def runMain (o : Oracle) (a : AppArgs) : List Ev × Outcome :=
  match o.initLogger with
  | .error e => ([], .err (.setupErr e))
  | .ok _ =>
    match o.buildClient with
    | .error e => ([], .err (.setupErr e))
    | .ok _ =>
      let first_api_url := gen_list_url a.start a.end_y 0 a.rows
      match o.http first_api_url with
      | .error e => ([.fetchList first_api_url], .err (.reqwestErr first_api_url e))
      | .ok first_resp =>
        let all_size := first_resp.response.num_found
        match o.genIndexFile with
        | .error e => ([.fetchList first_api_url], .err (.ioErr e))
        | .ok _ =>
          if a.rows = 0 then ([.fetchList first_api_url], .panicked div_zero_msg)
          else
            match processPages o a (joreiPages all_size a.rows) with
            | (evs, .cont) =>
              match o.flushIndex with
              | .error e => (.fetchList first_api_url :: evs, .err (.ioErr e))
              | .ok _ => (.fetchList first_api_url :: (evs ++ [.flushedIndex]), .ok)
            | (evs, .err e) => (.fetchList first_api_url :: evs, .err e)
            | (evs, .panicked m) => (.fetchList first_api_url :: evs, .panicked m)

/-- First document of the detail response the oracle returns for an
identifier, when that response is a success. -/
def detail_docs_head (o : Oracle) (id : String) : Option JoreiInfoResponseDocs :=
  match o.http (gen_jorei_url id) with
  | .ok r => r.response.docs.head?
  | .error _ => none

/-- Events of one fully successful identifier, per the oracle. -/
def okIdEvents (o : Oracle) (a : AppArgs) (id : String) : List Ev :=
  match detail_docs_head o id with
  | some doc =>
    [.fetchDetail (gen_jorei_url id), .wroteRecord (write_docs_path a.output id),
      .appendedIndex (gen_jorei_info doc)]
  | none => []

/-- Identifiers of one page, in the order the oracle's list response returns
them. -/
def pageIds (o : Oracle) (a : AppArgs) (n : Nat) : List String :=
  match o.http (gen_list_url a.start a.end_y n a.rows) with
  | .ok r => r.response.docs.map (fun d => d.id)
  | .error _ => []

/-- Events of one fully successful page, per the oracle. -/
def okPageEvents (o : Oracle) (a : AppArgs) (n : Nat) : List Ev :=
  .fetchList (gen_list_url a.start a.end_y n a.rows) ::
    ((pageIds o a n).flatMap (okIdEvents o a) ++ [.slept a.sleep_time])

/-- Reference trace of a fully successful run, written from the spec's
description of the pipeline: bootstrap query, then every page in increasing
index order (each page's identifiers in API order, one sleep at page end),
then the single index flush. -/
def expectedOkTrace (o : Oracle) (a : AppArgs) : List Ev :=
  match o.http (gen_list_url a.start a.end_y 0 a.rows) with
  | .error _ => []
  | .ok r =>
    .fetchList (gen_list_url a.start a.end_y 0 a.rows) ::
      ((joreiPages r.response.num_found a.rows).flatMap (okPageEvents o a) ++
        [.flushedIndex])

/-- Index entries appended during a trace, in order. -/
def indexEntries (t : List Ev) : List JoreiInfo :=
  t.filterMap (fun e =>
    match e with
    | .appendedIndex i => some i
    | _ => none)

/-- Index entries a fully successful run is expected to append: for every page
in increasing order, for every identifier in page order, the summary of the
detail response's first document. -/
def orderedInfos (o : Oracle) (a : AppArgs) (num_found : Nat) : List JoreiInfo :=
  (joreiPages num_found a.rows).flatMap (fun n =>
    (pageIds o a n).flatMap (fun id =>
      match detail_docs_head o id with
      | some doc => [gen_jorei_info doc]
      | none => []))


/-- Boolean: the outcome is a propagated (typed) error value, as opposed to
normal completion or a panic. -/
def is_err_outcome : Outcome → Bool
  | .err _ => true
  | _ => false

/-- Number of record-file write events in a trace. -/
def wroteCount (t : List Ev) : Nat :=
  t.countP (fun e =>
    match e with
    | .wroteRecord _ => true
    | _ => false)

/-- Boolean: `needle` occurs at the head of `hay`. -/
def startsWithRun : List Char → List Char → Bool
  | [], _ => true
  | _ :: _, [] => false
  | c :: cs, h :: hs => c == h && startsWithRun cs hs

/-- Boolean: `needle` occurs contiguously anywhere in `hay`. -/
def containsRun (needle : List Char) : List Char → Bool
  | [] => needle.isEmpty
  | h :: hs => startsWithRun needle (h :: hs) || containsRun needle hs

/-- Concrete raw record used by the concrete runs. -/
def sample_docs (id : String) (ft : Option String) : JoreiInfoResponseDocs :=
  { collection := ["latest"]
    collected_date := []
    updated_date := [0]
    municipality_id := "131016"
    prefecture := some "Tokyo"
    city := some "Chiyoda"
    prefecture_kana := none
    city_kana := none
    municipality_type := "city"
    area := "kanto"
    id := id
    reiki_id := "r-" ++ id
    h1 := none
    title := "t-" ++ id
    announcement_date := some 1641051000
    rtype := "jorei"
    last_updated_date := some 1641051000
    reiki_dates := none
    reiki_numbers := none
    update_count := none
    original_url := none
    reiki_url := none
    has_version := false
    file_type := ft
    h_type := []
    content := none
    collected_date_s := none
    announcement_date_s := none
    last_updated_date_s := none
    updated_date_s := none }

/-- Concrete API response envelope. -/
def mk_resp (nf : Nat) (docs : List JoreiInfoResponseDocs) : JoreiApiResponse :=
  ⟨⟨nf, 0, docs⟩⟩

/-- Arguments of the concrete successful run: three records over two pages. -/
def okArgs : AppArgs :=
  { start := none, end_y := none, index := "idx", output := "out", rows := 2,
    sleep_time := 500 }

/-- Oracle of the concrete successful run: `num_found = 3`, page 0 returns
identifiers `a`, `b`, page 1 returns `c`, and every detail fetch, write and
index operation succeeds. -/
def okOracle : Oracle :=
  { initLogger := .ok ()
    buildClient := .ok ()
    genIndexFile := .ok ()
    flushIndex := .ok ()
    write := fun _ _ => .ok ()
    appendIndex := fun _ => .ok ()
    http := fun url =>
      if url = gen_list_url none none 0 2 then
        .ok (mk_resp 3 [sample_docs "a" (some "html"), sample_docs "b" (some "html")])
      else if url = gen_list_url none none 1 2 then
        .ok (mk_resp 3 [sample_docs "c" (some "html")])
      else if url = gen_jorei_url "a" then .ok (mk_resp 1 [sample_docs "a" (some "html")])
      else if url = gen_jorei_url "b" then .ok (mk_resp 1 [sample_docs "b" (some "html")])
      else if url = gen_jorei_url "c" then .ok (mk_resp 1 [sample_docs "c" (some "html")])
      else .error "unexpected url" }

/-- Arguments of the concrete single-page runs. -/
def onePageArgs : AppArgs :=
  { start := none, end_y := none, index := "idx", output := "out", rows := 50,
    sleep_time := 500 }

/-- Oracle whose detail response for identifier `x` has an empty `docs` list. -/
def emptyDocsOracle : Oracle :=
  { initLogger := .ok ()
    buildClient := .ok ()
    genIndexFile := .ok ()
    flushIndex := .ok ()
    write := fun _ _ => .ok ()
    appendIndex := fun _ => .ok ()
    http := fun url =>
      if url = gen_list_url none none 0 50 then
        .ok (mk_resp 1 [sample_docs "x" (some "html")])
      else if url = gen_jorei_url "x" then .ok (mk_resp 0 [])
      else .error "unexpected url" }

/-- Oracle whose detail response for identifier `y` lacks the file-type field. -/
def noFileTypeOracle : Oracle :=
  { initLogger := .ok ()
    buildClient := .ok ()
    genIndexFile := .ok ()
    flushIndex := .ok ()
    write := fun _ _ => .ok ()
    appendIndex := fun _ => .ok ()
    http := fun url =>
      if url = gen_list_url none none 0 50 then
        .ok (mk_resp 1 [sample_docs "y" (some "html")])
      else if url = gen_jorei_url "y" then .ok (mk_resp 1 [sample_docs "y" none])
      else .error "unexpected url" }

/-- Oracle whose page lists `a`, `b`, `c` and whose write of `out/b.json`
fails with a bare I/O error naming no path. -/
def writeFailOracle : Oracle :=
  { initLogger := .ok ()
    buildClient := .ok ()
    genIndexFile := .ok ()
    flushIndex := .ok ()
    write := fun p _ => if p = "out/b.json" then .error "disk full" else .ok ()
    appendIndex := fun _ => .ok ()
    http := fun url =>
      if url = gen_list_url none none 0 50 then
        .ok (mk_resp 3 [sample_docs "a" (some "html"), sample_docs "b" (some "html"),
          sample_docs "c" (some "html")])
      else if url = gen_jorei_url "a" then .ok (mk_resp 1 [sample_docs "a" (some "html")])
      else if url = gen_jorei_url "b" then .ok (mk_resp 1 [sample_docs "b" (some "html")])
      else if url = gen_jorei_url "c" then .ok (mk_resp 1 [sample_docs "c" (some "html")])
      else .error "unexpected url" }


theorem ev_not_mem_processRecord (o : Oracle) (a : AppArgs) (id : String) (ev : Ev)
    (hs : ∀ u, ev ≠ Ev.fetchDetail u) (hw : ∀ p, ev ≠ Ev.wroteRecord p)
    (ha : ∀ i, ev ≠ Ev.appendedIndex i) :
    ev ∉ (processRecord o a id).1 := by
  rcases h1 : o.http (gen_jorei_url id) with e1 | r1 <;>
    simp only [processRecord, h1]
  · simp [hs]
  · rcases h2 : r1.response.docs with _ | ⟨dd, rest⟩ <;> simp only [h2]
    · simp [hs]
    · rcases h3 : gen_jorei_data dd with data | m <;> simp only [h3]
      · rcases h4 : o.write (write_docs_path a.output id) data with e4 | u4 <;>
          simp only [h4]
        · simp [hs]
        · rcases h5 : o.appendIndex (gen_jorei_info dd) with e5 | u5 <;>
            simp [hs, hw, ha]
      · simp [hs]

theorem slept_not_mem_processRecord (o : Oracle) (a : AppArgs) (id : String) (d : Nat) :
    Ev.slept d ∉ (processRecord o a id).1 :=
  ev_not_mem_processRecord o a id _ (by intro u h; cases h) (by intro p h; cases h)
    (by intro i h; cases h)

theorem flushed_not_mem_processRecord (o : Oracle) (a : AppArgs) (id : String) :
    Ev.flushedIndex ∉ (processRecord o a id).1 :=
  ev_not_mem_processRecord o a id _ (by intro u h; cases h) (by intro p h; cases h)
    (by intro i h; cases h)

theorem fetchList_not_mem_processRecord (o : Oracle) (a : AppArgs) (id : String)
    (u : String) : Ev.fetchList u ∉ (processRecord o a id).1 :=
  ev_not_mem_processRecord o a id _ (by intro x h; cases h) (by intro p h; cases h)
    (by intro i h; cases h)

theorem processRecord_cont_trace (o : Oracle) (a : AppArgs) (id : String)
    (h : (processRecord o a id).2 = .cont) :
    processRecord o a id = (okIdEvents o a id, .cont) := by
  rcases h1 : o.http (gen_jorei_url id) with e1 | r1 <;>
    simp only [processRecord, h1] at h ⊢ <;>
    simp only [okIdEvents, detail_docs_head, h1]
  · cases h
  · rcases h2 : r1.response.docs with _ | ⟨dd, rest⟩ <;> simp only [h2] at h ⊢
    · cases h
    · rcases h3 : gen_jorei_data dd with data | m <;> simp only [h3] at h ⊢
      · rcases h4 : o.write (write_docs_path a.output id) data with e4 | u4 <;>
          simp only [h4] at h ⊢
        · cases h
        · rcases h5 : o.appendIndex (gen_jorei_info dd) with e5 | u5 <;>
            simp only [h5] at h ⊢
          · cases h
          · simp
      · cases h

theorem processIds_nil (o : Oracle) (a : AppArgs) : processIds o a [] = ([], .cont) := rfl

theorem processIds_cons_cont (o : Oracle) (a : AppArgs) (id : String) (rest : List String)
    (h : (processRecord o a id).2 = .cont) :
    processIds o a (id :: rest) =
      ((processRecord o a id).1 ++ (processIds o a rest).1, (processIds o a rest).2) := by
  simp only [processIds, h]

theorem processIds_cons_stop (o : Oracle) (a : AppArgs) (id : String) (rest : List String)
    (r : StepRes) (h : (processRecord o a id).2 = r) (hr : r ≠ .cont) :
    processIds o a (id :: rest) = ((processRecord o a id).1, r) := by
  cases r with
  | cont => exact absurd rfl hr
  | err e => simp only [processIds, h]
  | panicked m => simp only [processIds, h]

theorem processIds_all_cont (o : Oracle) (a : AppArgs) (ids : List String)
    (h : ∀ id ∈ ids, (processRecord o a id).2 = .cont) :
    processIds o a ids = (ids.flatMap (okIdEvents o a), .cont) := by
  induction ids with
  | nil => simp [processIds_nil]
  | cons id rest ih =>
    have hid := h id (List.mem_cons_self id rest)
    rw [processIds_cons_cont o a id rest hid,
      ih (fun x hx => h x (List.mem_cons_of_mem id hx)),
      processRecord_cont_trace o a id hid]
    simp

theorem processIds_cont_forall (o : Oracle) (a : AppArgs) (ids : List String)
    (h : (processIds o a ids).2 = .cont) :
    ∀ id ∈ ids, (processRecord o a id).2 = .cont := by
  induction ids with
  | nil => intro id hid; cases hid
  | cons i rest ih =>
    intro id hid
    rcases hr : (processRecord o a i).2 with _ | e | m
    · rw [processIds_cons_cont o a i rest hr] at h
      rcases List.mem_cons.1 hid with rfl | hid'
      · exact hr
      · exact ih h id hid'
    · rw [processIds_cons_stop o a i rest _ hr (by simp)] at h
      cases h
    · rw [processIds_cons_stop o a i rest _ hr (by simp)] at h
      cases h

theorem processIds_abort (o : Oracle) (a : AppArgs) (ids1 : List String) (i : String)
    (ids2 : List String) (r : StepRes)
    (h1 : ∀ x ∈ ids1, (processRecord o a x).2 = .cont)
    (h2 : (processRecord o a i).2 = r) (hr : r ≠ .cont) :
    processIds o a (ids1 ++ i :: ids2) =
      (ids1.flatMap (okIdEvents o a) ++ (processRecord o a i).1, r) := by
  induction ids1 with
  | nil => simpa using processIds_cons_stop o a i ids2 r h2 hr
  | cons x rest ih =>
    have hx := h1 x (List.mem_cons_self x rest)
    rw [List.cons_append, processIds_cons_cont o a x (rest ++ i :: ids2) hx,
      ih (fun y hy => h1 y (List.mem_cons_of_mem x hy)),
      processRecord_cont_trace o a x hx]
    simp

theorem ev_not_mem_processIds (o : Oracle) (a : AppArgs) (ids : List String) (ev : Ev)
    (hs : ∀ u, ev ≠ Ev.fetchDetail u) (hw : ∀ p, ev ≠ Ev.wroteRecord p)
    (ha : ∀ i, ev ≠ Ev.appendedIndex i) :
    ev ∉ (processIds o a ids).1 := by
  induction ids with
  | nil => simp [processIds_nil]
  | cons i rest ih =>
    rcases hr : (processRecord o a i).2 with _ | e | m
    · rw [processIds_cons_cont o a i rest hr]
      simp only [List.mem_append]
      rintro (hm | hm)
      · exact ev_not_mem_processRecord o a i ev hs hw ha hm
      · exact ih hm
    · rw [processIds_cons_stop o a i rest _ hr (by simp)]
      exact ev_not_mem_processRecord o a i ev hs hw ha
    · rw [processIds_cons_stop o a i rest _ hr (by simp)]
      exact ev_not_mem_processRecord o a i ev hs hw ha

theorem ev_not_mem_okIdEvents (o : Oracle) (a : AppArgs) (id : String) (ev : Ev)
    (hs : ∀ u, ev ≠ Ev.fetchDetail u) (hw : ∀ p, ev ≠ Ev.wroteRecord p)
    (ha : ∀ i, ev ≠ Ev.appendedIndex i) :
    ev ∉ okIdEvents o a id := by
  rcases hh : detail_docs_head o id with _ | doc <;> simp [okIdEvents, hh, hs, hw, ha]

theorem processPage_cont (o : Oracle) (a : AppArgs) (n : Nat)
    (h : (processPage o a n).2 = .cont) :
    processPage o a n = (okPageEvents o a n, .cont) := by
  rcases h1 : o.http (gen_list_url a.start a.end_y n a.rows) with e1 | r1 <;>
    simp only [processPage, h1] at h ⊢
  · cases h
  · rcases hr : (processIds o a (r1.response.docs.map (fun d => d.id))).2 with _ | e | m <;>
      simp only [hr] at h ⊢
    · rw [processIds_all_cont o a _ (processIds_cont_forall o a _ hr)]
      simp [okPageEvents, pageIds, h1]
    · cases h
    · cases h

theorem fetchList_cons_processIds_of_page (o : Oracle) (a : AppArgs) (n : Nat) :
    ∃ t : List Ev × StepRes,
      processPage o a n = (Ev.fetchList (gen_list_url a.start a.end_y n a.rows) :: t.1, t.2) ∧
        (∀ ev ∈ t.1, ev ∈ (processIds o a (pageIds o a n)).1 ∨ ev = Ev.slept a.sleep_time) := by
  rcases h1 : o.http (gen_list_url a.start a.end_y n a.rows) with e1 | r1 <;>
    simp only [processPage, h1]
  · exact ⟨([], .err (.reqwestErr (gen_list_url a.start a.end_y n a.rows) e1)), by simp⟩
  · rcases hr : (processIds o a (r1.response.docs.map (fun d => d.id))).2 with _ | e | m <;>
      simp only [hr]
    · refine ⟨((processIds o a (r1.response.docs.map (fun d => d.id))).1 ++
        [Ev.slept a.sleep_time], .cont), by simp, ?_⟩
      intro ev hev
      rcases List.mem_append.1 hev with hm | hm
      · exact Or.inl (by simpa [pageIds, h1] using hm)
      · simp only [List.mem_singleton] at hm
        exact Or.inr hm
    · exact ⟨((processIds o a (r1.response.docs.map (fun d => d.id))).1, .err e),
        by simp, fun ev hev => Or.inl (by simpa [pageIds, h1] using hev)⟩
    · exact ⟨((processIds o a (r1.response.docs.map (fun d => d.id))).1, .panicked m),
        by simp, fun ev hev => Or.inl (by simpa [pageIds, h1] using hev)⟩

theorem flushed_not_mem_processPage (o : Oracle) (a : AppArgs) (n : Nat) :
    Ev.flushedIndex ∉ (processPage o a n).1 := by
  obtain ⟨t, ht, hmem⟩ := fetchList_cons_processIds_of_page o a n
  rw [ht]
  simp only [List.mem_cons]
  rintro (h | h)
  · cases h
  · rcases hmem _ h with hm | hm
    · exact ev_not_mem_processIds o a _ _ (by intro u hh; cases hh) (by intro p hh; cases hh)
        (by intro i hh; cases hh) hm
    · cases hm

theorem processPages_nil (o : Oracle) (a : AppArgs) : processPages o a [] = ([], .cont) := rfl

theorem processPages_cons_cont (o : Oracle) (a : AppArgs) (n : Nat) (rest : List Nat)
    (h : (processPage o a n).2 = .cont) :
    processPages o a (n :: rest) =
      ((processPage o a n).1 ++ (processPages o a rest).1, (processPages o a rest).2) := by
  simp only [processPages, h]

theorem processPages_cons_stop (o : Oracle) (a : AppArgs) (n : Nat) (rest : List Nat)
    (r : StepRes) (h : (processPage o a n).2 = r) (hr : r ≠ .cont) :
    processPages o a (n :: rest) = ((processPage o a n).1, r) := by
  cases r with
  | cont => exact absurd rfl hr
  | err e => simp only [processPages, h]
  | panicked m => simp only [processPages, h]

theorem processPages_all_cont (o : Oracle) (a : AppArgs) (ps : List Nat)
    (h : ∀ n ∈ ps, (processPage o a n).2 = .cont) :
    processPages o a ps = (ps.flatMap (okPageEvents o a), .cont) := by
  induction ps with
  | nil => simp [processPages_nil]
  | cons n rest ih =>
    have hn := h n (List.mem_cons_self n rest)
    rw [processPages_cons_cont o a n rest hn,
      ih (fun x hx => h x (List.mem_cons_of_mem n hx)), processPage_cont o a n hn]
    simp

theorem processPages_cont_forall (o : Oracle) (a : AppArgs) (ps : List Nat)
    (h : (processPages o a ps).2 = .cont) :
    ∀ n ∈ ps, (processPage o a n).2 = .cont := by
  induction ps with
  | nil => intro n hn; cases hn
  | cons p rest ih =>
    intro n hn
    rcases hr : (processPage o a p).2 with _ | e | m
    · rw [processPages_cons_cont o a p rest hr] at h
      rcases List.mem_cons.1 hn with rfl | hn'
      · exact hr
      · exact ih h n hn'
    · rw [processPages_cons_stop o a p rest _ hr (by simp)] at h
      cases h
    · rw [processPages_cons_stop o a p rest _ hr (by simp)] at h
      cases h

theorem flushed_not_mem_processPages (o : Oracle) (a : AppArgs) (ps : List Nat) :
    Ev.flushedIndex ∉ (processPages o a ps).1 := by
  induction ps with
  | nil => simp [processPages_nil]
  | cons n rest ih =>
    rcases hr : (processPage o a n).2 with _ | e | m
    · rw [processPages_cons_cont o a n rest hr]
      simp only [List.mem_append]
      rintro (hm | hm)
      · exact flushed_not_mem_processPage o a n hm
      · exact ih hm
    · rw [processPages_cons_stop o a n rest _ hr (by simp)]
      exact flushed_not_mem_processPage o a n
    · rw [processPages_cons_stop o a n rest _ hr (by simp)]
      exact flushed_not_mem_processPage o a n

theorem runMain_ok_shape (o : Oracle) (a : AppArgs) (h : (runMain o a).2 = .ok) :
    runMain o a = (expectedOkTrace o a, .ok) := by
  rcases hL : o.initLogger with eL | uL <;> simp only [runMain, hL] at h ⊢
  · cases h
  rcases hC : o.buildClient with eC | uC <;> simp only [hC] at h ⊢
  · cases h
  rcases h1 : o.http (gen_list_url a.start a.end_y 0 a.rows) with e1 | r1 <;>
    simp only [h1] at h ⊢
  · cases h
  rcases hG : o.genIndexFile with eG | uG <;> simp only [hG] at h ⊢
  · cases h
  by_cases h0 : a.rows = 0
  · rw [if_pos h0] at h
    cases h
  · rw [if_neg h0] at h ⊢
    rcases hP : processPages o a (joreiPages r1.response.num_found a.rows) with ⟨evs, r⟩
    cases r <;> simp only [hP] at h ⊢
    · -- cont
      rcases hF : o.flushIndex with eF | uF <;> simp only [hF] at h ⊢
      · cases h
      · have hall := processPages_cont_forall o a
          (joreiPages r1.response.num_found a.rows) (by rw [hP])
        have hflat := processPages_all_cont o a
          (joreiPages r1.response.num_found a.rows) hall
        rw [hP] at hflat
        injection hflat with hev _
        simp only [expectedOkTrace, h1, hev]
    · cases h
    · cases h

theorem runMain_not_ok_flush_free (o : Oracle) (a : AppArgs)
    (h : (runMain o a).2 ≠ .ok) : Ev.flushedIndex ∉ (runMain o a).1 := by
  rcases hL : o.initLogger with eL | uL <;> simp only [runMain, hL] at h ⊢
  · simp
  rcases hC : o.buildClient with eC | uC <;> simp only [hC] at h ⊢
  · simp
  rcases h1 : o.http (gen_list_url a.start a.end_y 0 a.rows) with e1 | r1 <;>
    simp only [h1] at h ⊢
  · simp
  rcases hG : o.genIndexFile with eG | uG <;> simp only [hG] at h ⊢
  · simp
  by_cases h0 : a.rows = 0
  · rw [if_pos h0]
    simp
  · rw [if_neg h0] at h ⊢
    rcases hP : processPages o a (joreiPages r1.response.num_found a.rows) with ⟨evs, r⟩
    have hevs : Ev.flushedIndex ∉ evs := by
      have := flushed_not_mem_processPages o a (joreiPages r1.response.num_found a.rows)
      rw [hP] at this
      exact this
    cases r <;> simp only [hP] at h ⊢
    · -- cont
      rcases hF : o.flushIndex with eF | uF <;> simp only [hF] at h ⊢
      · simp only [List.mem_cons]
        rintro (hc | hc)
        · cases hc
        · exact hevs hc
      · exact absurd rfl h
    · simp only [List.mem_cons]
      rintro (hc | hc)
      · cases hc
      · exact hevs hc
    · simp only [List.mem_cons]
      rintro (hc | hc)
      · cases hc
      · exact hevs hc

theorem runMain_ok_flush_count (o : Oracle) (a : AppArgs) (h : (runMain o a).2 = .ok) :
    (runMain o a).1.count Ev.flushedIndex = 1 := by
  rcases hL : o.initLogger with eL | uL <;> simp only [runMain, hL] at h ⊢
  · cases h
  rcases hC : o.buildClient with eC | uC <;> simp only [hC] at h ⊢
  · cases h
  rcases h1 : o.http (gen_list_url a.start a.end_y 0 a.rows) with e1 | r1 <;>
    simp only [h1] at h ⊢
  · cases h
  rcases hG : o.genIndexFile with eG | uG <;> simp only [hG] at h ⊢
  · cases h
  by_cases h0 : a.rows = 0
  · rw [if_pos h0] at h
    cases h
  · rw [if_neg h0] at h ⊢
    rcases hP : processPages o a (joreiPages r1.response.num_found a.rows) with ⟨evs, r⟩
    have hevs : Ev.flushedIndex ∉ evs := by
      have := flushed_not_mem_processPages o a (joreiPages r1.response.num_found a.rows)
      rw [hP] at this
      exact this
    cases r <;> simp only [hP] at h ⊢
    · -- cont
      rcases hF : o.flushIndex with eF | uF <;> simp only [hF] at h ⊢
      · cases h
      · simp [List.count_cons, List.count_append, List.count_eq_zero.2 hevs]
    · cases h
    · cases h

/-- C3: for every totalCount and positive pageSize the driver computes
`pageCount = totalCount / pageSize` (floor) and visits exactly the page
indices `0..=pageCount` in increasing order; `totalCount = 120`,
`pageSize = 50` visits pages 0, 1, 2 (three list queries of the loop), and
when pageSize divides totalCount the final visited page starts at offset
`totalCount`, i.e. one extra (empty) page query. -/
theorem c3_pagination_driver (total rows : Nat) (h : 0 < rows) :
    (∀ k, k ∈ joreiPages total rows ↔ k ≤ total / rows) ∧
    List.Pairwise (· < ·) (joreiPages total rows) ∧
    (joreiPages total rows).length = total / rows + 1 ∧
    joreiPages 120 50 = [0, 1, 2] ∧
    (rows ∣ total → rows * (total / rows) = total) := by
  refine ⟨?_, List.pairwise_lt_range _, by simp [joreiPages], by decide, ?_⟩
  · intro k
    simp [joreiPages, List.mem_range, Nat.lt_succ_iff]
  · intro hd
    exact Nat.mul_div_cancel' hd

/-- Witness for C3 at `totalCount = 120, pageSize = 50` and, for the
exact-multiple conjunct, at `totalCount = 100, pageSize = 50`. -/
theorem c3_pagination_driver_witness :
    joreiPages 120 50 = [0, 1, 2] ∧ 50 * (100 / 50) = 100 :=
  ⟨(c3_pagination_driver 120 50 (by decide)).2.2.2.1,
    (c3_pagination_driver 100 50 (by decide)).2.2.2.2 ⟨2, rfl⟩⟩

/-- C5: `utc_to_date` is pure and deterministic: it depends only on the
calendar day of the instant shifted by +9 hours (32400 seconds), and the
instant 2022-01-01T15:30:00Z (epoch 1641051000) maps to civil 2022-01-02;
the neighbouring instants 15:00:00Z and 14:59:59Z land on 2022-01-02 and
2022-01-01 respectively. -/
theorem c5_utc_to_date (t1 t2 : Int)
    (h : (t1 + 32400).fdiv 86400 = (t2 + 32400).fdiv 86400) :
    utc_to_date t1 = utc_to_date t2 ∧
    utc_to_date 1641051000 = Date.gen_from_ad 2022 1 2 ∧
    utc_to_date 1641049200 = Date.gen_from_ad 2022 1 2 ∧
    utc_to_date 1641049199 = Date.gen_from_ad 2022 1 1 := by
  refine ⟨?_, by decide, by decide, by decide⟩
  simp only [utc_to_date]
  have h9 : (9 : Int) * 3600 = 32400 := by norm_num
  rw [h9, h]

/-- Witness for C5: two instants of the same UTC+9 calendar day map to the
same civil date. -/
theorem c5_utc_to_date_witness :
    utc_to_date 1641051000 = utc_to_date 1641049200 :=
  (c5_utc_to_date 1641051000 1641049200 (by decide)).1

/-- C9: the index entry built by `gen_jorei_info` takes its updated-date
field from the scalar `last_updated_date` of the raw record, and the
`updated_date` revision-history list has no influence on the index entry. -/
theorem c9_index_updated_date (docs : JoreiInfoResponseDocs) :
    (gen_jorei_info docs).updated_date = docs.last_updated_date.map utc_to_date ∧
    ∀ l : List Int, gen_jorei_info { docs with updated_date := l } = gen_jorei_info docs :=
  ⟨rfl, fun _ => rfl⟩

/-- C10: `gen_jorei_url` is exactly the fixed URL prefix, the identifier
verbatim (no percent-encoding: its characters survive as a contiguous
sublist), and the fixed suffix; URL metacharacters pass through unaltered. -/
theorem c10_detail_url_verbatim (id : String) :
    gen_jorei_url id = jorei_url_pre ++ id ++ jorei_url_suf ∧
    (∃ s t : List Char, s ++ id.data ++ t = (gen_jorei_url id).data) ∧
    gen_jorei_url "a b&c=%/?" =
      "https://jorei.slis.doshisha.ac.jp/api/reiki/select?q=ids%3Aa b&c=%/?&all=true" := by
  refine ⟨rfl, ⟨jorei_url_pre.data, jorei_url_suf.data, ?_⟩, by decide⟩
  simp [gen_jorei_url, String.data_append]

/-- C4 (amended): `gen_list_url` is the fixed constant pieces with the offset
`n * rows`, the page size `rows`, and each optional year bound rendered as its
decimal digits left-padded with '0' to a minimum width of 4 (so exactly 4
characters whenever the year's decimal form has at most 4 digits) or the
wildcard sentinel `*` when absent. The original claim's "zero-padded 4-digit
years" for every year fails: the format pads to a minimum width, so a year
above 9999 renders with more than 4 digits. -/
theorem c4_list_url (s e : Option Nat) (n rows : Nat) :
    gen_list_url s e n rows =
      list_url_pre ++ year_bound s ++ list_url_mid ++ year_bound e ++
        list_url_dates_close ++ toString (n * rows) ++ list_url_rows_key ++
        toString rows ++ list_url_suffix ∧
    year_bound none = "*" ∧
    (∀ y : Nat, (year_bound (some y)).length = max 4 (toString y).length) ∧
    (∀ y : Nat, (toString y).length ≤ 4 → (year_bound (some y)).length = 4) ∧
    (∀ y : Nat, (year_bound (some y)).data =
      List.replicate (4 - (toString y).length) '0' ++ (toString y).data) := by
  have hlen : ∀ y : Nat, (year_bound (some y)).length = max 4 (toString y).length := by
    intro y
    show (List.leftpad 4 '0' (toString y).data).length = _
    rw [List.leftpad_length]
    rfl
  refine ⟨?_, rfl, hlen, ?_, fun y => rfl⟩
  · simp only [gen_list_url]
    rw [Nat.mul_comm n rows]
  · intro y hy
    rw [hlen y]
    exact Nat.max_eq_left hy

/-- Counterexample to C4 as stated: the year 10000 is a legal `usize` bound
and renders as the 5-character "10000", not a 4-digit year. -/
theorem c4_list_url_counterexample :
    year_bound (some 10000) = "10000" ∧
    (year_bound (some 10000)).length = 5 ∧
    gen_list_url (some 10000) none 0 50 =
      list_url_pre ++ "10000" ++ list_url_mid ++ "*" ++ list_url_dates_close ++
        "0" ++ list_url_rows_key ++ "50" ++ list_url_suffix := by
  exact ⟨by decide, by decide, by decide⟩

/-- Witness for C4 at a 4-digit year. -/
theorem c4_list_url_witness : (year_bound (some 2022)).length = 4 :=
  (c4_list_url (some 2022) none 0 50).2.2.2.1 2022 (by decide)

/-- C2 (amended): when the raw record's file-type field is absent,
`gen_jorei_data` fails loudly with the `Option::unwrap` panic — not with a
typed error value, since its Rust type `JoreiData` has no error channel —
and when the field is present the output's file type is exactly the input's,
never a substituted default. -/
theorem c2_missing_file_type :
    (∀ docs : JoreiInfoResponseDocs, docs.file_type = none →
      gen_jorei_data docs = RustValue.panicked unwrap_none_msg) ∧
    (∀ (docs : JoreiInfoResponseDocs) (data : JoreiData),
      gen_jorei_data docs = RustValue.ok data → docs.file_type = some data.file_type) := by
  constructor
  · intro docs h
    simp [gen_jorei_data, h]
  · intro docs data h
    rcases hf : docs.file_type with _ | ft
    · simp [gen_jorei_data, hf] at h
    · simp only [gen_jorei_data, hf, RustValue.ok.injEq] at h
      subst h
      simp [hf]

/-- Counterexample to C2 as stated: a run whose detail record lacks the
file-type field ends in the `Option::unwrap` panic; its outcome is not a
typed error result. -/
theorem c2_missing_file_type_counterexample :
    (runMain noFileTypeOracle onePageArgs).2 = Outcome.panicked unwrap_none_msg ∧
    is_err_outcome (runMain noFileTypeOracle onePageArgs).2 = false :=
  ⟨by decide, by decide⟩

/-- Witness for C2: the panic at a concrete record without a file type, and
the verbatim file type at a concrete record with one. -/
theorem c2_missing_file_type_witness :
    gen_jorei_data (sample_docs "y" none) = RustValue.panicked unwrap_none_msg ∧
    (sample_docs "y" (some "html")).file_type = some "html" :=
  ⟨c2_missing_file_type.1 (sample_docs "y" none) rfl,
    c2_missing_file_type.2 (sample_docs "y" (some "html")) _ rfl⟩

/-- C1 (amended): when a detail response decodes successfully but its `docs`
list is empty, the per-record step panics with the index-out-of-bounds fault
of `docs[0]` (the code has no emptiness guard) right after the fetch, and no
record file is written for that identifier. -/
theorem c1_empty_docs_detail (o : Oracle) (a : AppArgs) (id : String)
    (resp : JoreiApiResponse) (h1 : o.http (gen_jorei_url id) = .ok resp)
    (h2 : resp.response.docs = []) :
    processRecord o a id = ([Ev.fetchDetail (gen_jorei_url id)], .panicked index_oob_msg) ∧
    ∀ p, Ev.wroteRecord p ∉ (processRecord o a id).1 := by
  have hr : processRecord o a id =
      ([Ev.fetchDetail (gen_jorei_url id)], .panicked index_oob_msg) := by
    simp only [processRecord, h1, h2]
  refine ⟨hr, ?_⟩
  intro p
  rw [hr]
  simp

/-- Counterexample to C1 as stated: a concrete run whose detail response has
an empty `docs` list aborts with the out-of-bounds panic of `docs[0]` — its
outcome is not an error result — and writes no record file. -/
theorem c1_empty_docs_counterexample :
    (runMain emptyDocsOracle onePageArgs).2 = Outcome.panicked index_oob_msg ∧
    is_err_outcome (runMain emptyDocsOracle onePageArgs).2 = false ∧
    wroteCount (runMain emptyDocsOracle onePageArgs).1 = 0 :=
  ⟨by decide, by decide, by decide⟩

/-- Witness for C1 at the concrete empty-docs oracle. -/
theorem c1_empty_docs_witness :
    processRecord emptyDocsOracle onePageArgs "x" =
      ([Ev.fetchDetail (gen_jorei_url "x")], .panicked index_oob_msg) :=
  (c1_empty_docs_detail emptyDocsOracle onePageArgs "x" (mk_resp 0 []) rfl rfl).1

theorem indexEntries_append (t1 t2 : List Ev) :
    indexEntries (t1 ++ t2) = indexEntries t1 ++ indexEntries t2 :=
  List.filterMap_append t1 t2 _

theorem indexEntries_okIdEvents (o : Oracle) (a : AppArgs) (id : String) :
    indexEntries (okIdEvents o a id) =
      match detail_docs_head o id with
      | some doc => [gen_jorei_info doc]
      | none => [] := by
  rcases h : detail_docs_head o id with _ | doc <;> simp [okIdEvents, indexEntries, h]

theorem indexEntries_flatMap_okIdEvents (o : Oracle) (a : AppArgs) (ids : List String) :
    indexEntries (ids.flatMap (okIdEvents o a)) =
      ids.flatMap (fun id =>
        match detail_docs_head o id with
        | some doc => [gen_jorei_info doc]
        | none => []) := by
  induction ids with
  | nil => rfl
  | cons i rest ih =>
    simp only [List.flatMap_cons]
    rw [indexEntries_append, indexEntries_okIdEvents, ih]

theorem indexEntries_okPageEvents (o : Oracle) (a : AppArgs) (n : Nat) :
    indexEntries (okPageEvents o a n) =
      (pageIds o a n).flatMap (fun id =>
        match detail_docs_head o id with
        | some doc => [gen_jorei_info doc]
        | none => []) := by
  show indexEntries ((pageIds o a n).flatMap (okIdEvents o a) ++ [Ev.slept a.sleep_time]) = _
  rw [indexEntries_append, indexEntries_flatMap_okIdEvents]
  simp [indexEntries]

theorem indexEntries_expectedOkTrace (o : Oracle) (a : AppArgs) (r : JoreiApiResponse)
    (h1 : o.http (gen_list_url a.start a.end_y 0 a.rows) = .ok r) :
    indexEntries (expectedOkTrace o a) = orderedInfos o a r.response.num_found := by
  simp only [expectedOkTrace, h1]
  show indexEntries ((joreiPages r.response.num_found a.rows).flatMap (okPageEvents o a) ++
      [Ev.flushedIndex]) = _
  rw [indexEntries_append]
  have h2 : indexEntries [Ev.flushedIndex] = [] := rfl
  rw [h2, List.append_nil]
  show _ = (joreiPages r.response.num_found a.rows).flatMap _
  induction joreiPages r.response.num_found a.rows with
  | nil => rfl
  | cons p rest ih =>
    simp only [List.flatMap_cons]
    rw [indexEntries_append, indexEntries_okPageEvents, ih]

theorem runMain_ok_pages_cont (o : Oracle) (a : AppArgs) (r : JoreiApiResponse)
    (h1 : o.http (gen_list_url a.start a.end_y 0 a.rows) = .ok r)
    (h : (runMain o a).2 = .ok) :
    (processPages o a (joreiPages r.response.num_found a.rows)).2 = .cont := by
  rcases hL : o.initLogger with eL | uL <;> simp only [runMain, hL] at h
  · cases h
  rcases hC : o.buildClient with eC | uC <;> simp only [hC] at h
  · cases h
  simp only [h1] at h
  rcases hG : o.genIndexFile with eG | uG <;> simp only [hG] at h
  · cases h
  by_cases h0 : a.rows = 0
  · rw [if_pos h0] at h
    cases h
  · rw [if_neg h0] at h
    rcases hP : processPages o a (joreiPages r.response.num_found a.rows) with ⟨evs, rr⟩
    cases rr <;> simp only [hP] at h ⊢
    · cases h
    · cases h

theorem processPage_cont_ids (o : Oracle) (a : AppArgs) (n : Nat)
    (h : (processPage o a n).2 = .cont) :
    (processIds o a (pageIds o a n)).2 = .cont := by
  rcases h1 : o.http (gen_list_url a.start a.end_y n a.rows) with e1 | r1 <;>
    simp only [processPage, h1] at h
  · cases h
  · simp only [pageIds, h1]
    rcases hr : (processIds o a (r1.response.docs.map (fun d => d.id))).2 with _ | e | m <;>
      simp only [hr] at h ⊢
    · cases h
    · cases h

/-- C7: in every successful run the trace equals the reference trace — pages
in increasing index order, identifiers in page-return order within each page,
sequentially with no reordering — and the index artifact receives exactly one
summary entry per successfully processed record, in that processing order. -/
theorem c7_ordering (o : Oracle) (a : AppArgs) (r : JoreiApiResponse)
    (h1 : o.http (gen_list_url a.start a.end_y 0 a.rows) = .ok r)
    (h : (runMain o a).2 = Outcome.ok) :
    (runMain o a).1 = expectedOkTrace o a ∧
    indexEntries (runMain o a).1 = orderedInfos o a r.response.num_found ∧
    ∀ n ∈ joreiPages r.response.num_found a.rows, ∀ id ∈ pageIds o a n,
      (processRecord o a id).2 = StepRes.cont := by
  have hshape := runMain_ok_shape o a h
  have htrace : (runMain o a).1 = expectedOkTrace o a := by rw [hshape]
  refine ⟨htrace, ?_, ?_⟩
  · rw [htrace, indexEntries_expectedOkTrace o a r h1]
  · intro n hn id hid
    have hpc := runMain_ok_pages_cont o a r h1 h
    have hpage := processPages_cont_forall o a _ hpc n hn
    exact processIds_cont_forall o a _ (processPage_cont_ids o a n hpage) id hid

/-- Witness for C7 at the concrete successful three-record two-page run. -/
theorem c7_ordering_witness :
    (runMain okOracle okArgs).1 = expectedOkTrace okOracle okArgs :=
  (c7_ordering okOracle okArgs
    (mk_resp 3 [sample_docs "a" (some "html"), sample_docs "b" (some "html")])
    rfl (by decide)).1

theorem count_slept_flatMap_okIdEvents (o : Oracle) (a : AppArgs) (ids : List String)
    (d : Nat) : Ev.slept d ∉ ids.flatMap (okIdEvents o a) := by
  intro hm
  rcases List.mem_flatMap.1 hm with ⟨id, _, hmem⟩
  exact ev_not_mem_okIdEvents o a id _ (fun u hh => by cases hh) (fun p hh => by cases hh)
    (fun i hh => by cases hh) hmem

theorem count_slept_okPageEvents (o : Oracle) (a : AppArgs) (n : Nat) :
    (okPageEvents o a n).count (Ev.slept a.sleep_time) = 1 := by
  simp only [okPageEvents, List.count_cons, List.count_append]
  rw [List.count_eq_zero.2 (count_slept_flatMap_okIdEvents o a (pageIds o a n) a.sleep_time)]
  simp

/-- C8: the rate limiter never fires inside per-record processing (no sleep
after an individual detail fetch); every completed page's events are the page
fetch, the per-identifier events (sleep-free), then exactly one sleep of the
configured fixed duration; in a successful run every sleep event has the
configured duration and there are exactly as many sleeps as visited pages. -/
theorem c8_rate_limiter :
    (∀ (o : Oracle) (a : AppArgs) (ids : List String) (d : Nat),
      Ev.slept d ∉ (processIds o a ids).1) ∧
    (∀ (o : Oracle) (a : AppArgs) (n : Nat), (processPage o a n).2 = .cont →
      ∃ evs, processPage o a n =
        (Ev.fetchList (gen_list_url a.start a.end_y n a.rows) ::
          (evs ++ [Ev.slept a.sleep_time]), .cont) ∧
        ∀ d, Ev.slept d ∉ evs) ∧
    (∀ (o : Oracle) (a : AppArgs), (runMain o a).2 = Outcome.ok →
      ∀ d, Ev.slept d ∈ (runMain o a).1 → d = a.sleep_time) ∧
    (∀ (o : Oracle) (a : AppArgs) (r : JoreiApiResponse),
      o.http (gen_list_url a.start a.end_y 0 a.rows) = .ok r →
      (runMain o a).2 = Outcome.ok →
      (runMain o a).1.count (Ev.slept a.sleep_time) =
        (joreiPages r.response.num_found a.rows).length) := by
  refine ⟨?_, ?_, ?_, ?_⟩
  · intro o a ids d
    exact ev_not_mem_processIds o a ids _ (fun u hh => by cases hh)
      (fun p hh => by cases hh) (fun i hh => by cases hh)
  · intro o a n h
    refine ⟨(pageIds o a n).flatMap (okIdEvents o a), ?_, ?_⟩
    · simpa [okPageEvents] using processPage_cont o a n h
    · intro d
      exact count_slept_flatMap_okIdEvents o a (pageIds o a n) d
  · intro o a h d hm
    rw [show (runMain o a).1 = expectedOkTrace o a from by rw [runMain_ok_shape o a h]] at hm
    rcases h1 : o.http (gen_list_url a.start a.end_y 0 a.rows) with e1 | r1 <;>
      simp only [expectedOkTrace, h1] at hm
    · cases hm
    · simp only [List.mem_cons, List.mem_append, List.mem_singleton] at hm
      rcases hm with hm | hm | hm | hm
      · cases hm
      · rcases List.mem_flatMap.1 hm with ⟨n, _, hmem⟩
        simp only [okPageEvents, List.mem_cons, List.mem_append,
          List.mem_singleton] at hmem
        rcases hmem with hmem | hmem | hmem | hmem
        · cases hmem
        · exact absurd hmem (count_slept_flatMap_okIdEvents o a (pageIds o a n) d)
        · injection hmem with hd
        · cases hmem
      · cases hm
      · cases hm
  · intro o a r h1 h
    rw [show (runMain o a).1 = expectedOkTrace o a from by rw [runMain_ok_shape o a h]]
    simp only [expectedOkTrace, h1, List.count_cons, List.count_append,
      List.count_flatMap]
    have hmap : List.map (List.count (Ev.slept a.sleep_time) ∘ okPageEvents o a)
        (joreiPages r.response.num_found a.rows) =
        List.map (fun _ => 1) (joreiPages r.response.num_found a.rows) := by
      refine List.map_congr_left ?_
      intro n _
      exact count_slept_okPageEvents o a n
    rw [hmap]
    simp

/-- Witness for C8 on the concrete successful run: one sleep of the
configured duration per visited page (two pages). -/
theorem c8_rate_limiter_witness :
    (runMain okOracle okArgs).1.count (Ev.slept 500) = 2 :=
  (c8_rate_limiter.2.2.2 okOracle okArgs
    (mk_resp 3 [sample_docs "a" (some "html"), sample_docs "b" (some "html")])
    rfl (by decide)).trans (by decide)

/-- C6 (amended): every fetch or write error aborts the run immediately — the
failing operation's event is the last, no later identifier is attempted, and
the error value is propagated to the boundary unchanged (the source attaches
no context of its own: a fetch error names the URL only because the HTTP
client's error value does, and a write error carries only the bare I/O
message, with no path) — and the index flush happens exactly once at normal
completion and never on an aborted run. -/
theorem c6_error_abort_flush :
    (∀ (o : Oracle) (a : AppArgs), (runMain o a).2 = Outcome.ok →
      (runMain o a).1.count Ev.flushedIndex = 1) ∧
    (∀ (o : Oracle) (a : AppArgs), (runMain o a).2 ≠ Outcome.ok →
      Ev.flushedIndex ∉ (runMain o a).1) ∧
    (∀ (o : Oracle) (a : AppArgs) (ids1 : List String) (i : String) (ids2 : List String)
      (resp : JoreiApiResponse) (doc : JoreiInfoResponseDocs)
      (rest : List JoreiInfoResponseDocs) (data : JoreiData) (e : String),
      (∀ x ∈ ids1, (processRecord o a x).2 = StepRes.cont) →
      o.http (gen_jorei_url i) = .ok resp →
      resp.response.docs = doc :: rest →
      gen_jorei_data doc = RustValue.ok data →
      o.write (write_docs_path a.output i) data = .error e →
      processIds o a (ids1 ++ i :: ids2) =
        (ids1.flatMap (okIdEvents o a) ++ [Ev.fetchDetail (gen_jorei_url i)],
          StepRes.err (RunError.ioErr e))) := by
  refine ⟨runMain_ok_flush_count, runMain_not_ok_flush_free, ?_⟩
  intro o a ids1 i ids2 resp doc rest data e hc hh hd hgen hw
  have hrec : processRecord o a i =
      ([Ev.fetchDetail (gen_jorei_url i)], .err (.ioErr e)) := by
    simp only [processRecord, hh, hd, hgen, hw]
  rw [processIds_abort o a ids1 i ids2 (.err (.ioErr e)) hc (by rw [hrec]) (by simp)]
  rw [hrec]

/-- Counterexample to C6 as stated: in the concrete run whose write of the
2nd of 3 records fails, the surfaced fatal failure is the bare I/O message
"disk full", which contains neither the involved path `out/b.json` nor the
involved detail URL — the "carries context naming the URL or path involved"
clause fails. The abort and no-flush clauses do hold: the 3rd record is never
fetched and no flush event occurs. -/
theorem c6_error_abort_flush_counterexample :
    (runMain writeFailOracle onePageArgs).2 = Outcome.err (RunError.ioErr "disk full") ∧
    containsRun (write_docs_path "out" "b").data ("disk full").data = false ∧
    containsRun (gen_jorei_url "b").data ("disk full").data = false ∧
    Ev.flushedIndex ∉ (runMain writeFailOracle onePageArgs).1 ∧
    Ev.fetchDetail (gen_jorei_url "c") ∉ (runMain writeFailOracle onePageArgs).1 := by
  have htr : (runMain writeFailOracle onePageArgs).1 =
      [Ev.fetchList (gen_list_url none none 0 50),
        Ev.fetchList (gen_list_url none none 0 50),
        Ev.fetchDetail (gen_jorei_url "a"),
        Ev.wroteRecord (write_docs_path "out" "a"),
        Ev.appendedIndex (gen_jorei_info (sample_docs "a" (some "html"))),
        Ev.fetchDetail (gen_jorei_url "b")] := by decide
  refine ⟨by decide, by decide, by decide, ?_, ?_⟩
  · rw [htr]
    decide
  · rw [htr]
    decide

/-- Witness for C6: flush count one on the successful run, no flush on the
aborted run, and the concrete abort at the failing write of `b` with records
`c` never attempted and the error propagated verbatim. -/
theorem c6_error_abort_flush_witness :
    (runMain okOracle okArgs).1.count Ev.flushedIndex = 1 ∧
    Ev.flushedIndex ∉ (runMain writeFailOracle onePageArgs).1 ∧
    processIds writeFailOracle onePageArgs ["a", "b", "c"] =
      (["a"].flatMap (okIdEvents writeFailOracle onePageArgs) ++
        [Ev.fetchDetail (gen_jorei_url "b")],
        StepRes.err (RunError.ioErr "disk full")) := by
  refine ⟨c6_error_abort_flush.1 okOracle okArgs (by decide),
    c6_error_abort_flush.2.1 writeFailOracle onePageArgs (by decide), ?_⟩
  exact c6_error_abort_flush.2.2 writeFailOracle onePageArgs ["a"] "b" ["c"]
    (mk_resp 1 [sample_docs "b" (some "html")]) (sample_docs "b" (some "html")) []
    _ "disk full"
    (by intro x hx; rw [List.mem_singleton.1 hx]; decide)
    rfl rfl rfl rfl
